import Mathlib

/-!
Verification of the scoring and ranking engine of the CrossBench
leaderboard aggregator (src/scraper.cpp).  The C++ double arithmetic is
embedded over exact rationals for the data model and over the reals for
the two transcendental operations the source uses (std::sqrt in the
confidence estimator, std::log10 in the value ranking).
-/

namespace CrossBench

/-- Modalities a model may support (enum class Modality in scraper.cpp). -/
inductive Modality where
  | Text
  | Image
  | Video
deriving DecidableEq

/-- One weighted, source-attributed observation (struct Signal). -/
structure Signal where
  source : String
  score : ℚ
  weight : ℚ
deriving DecidableEq

/-- Enriched per-model metrics (struct PerformanceMetrics), with the
field defaults of the C++ initializers. -/
structure PerformanceMetrics where
  reasoning_score : ℚ := 0
  coding_score : ℚ := 0
  creative_score : ℚ := 0
  context_window : ℚ := 0
  price_input_1m : ℚ := 0
  tokens_per_sec : ℚ := 0
  is_open_source : Bool := false
  is_enterprise_ready : Bool := false
  last_updated_days_ago : ℤ := 0
  org_maturity : ℚ := 0
  uptime_sla : ℚ := 0
  recency_bonus : ℕ := 0
deriving DecidableEq

/-- One evaluated record (class ModelEntity): identity, modality set,
metrics, retained signals and the aggregate final_score. The values the
source stores in confidence_score and ranks are recovered by the derived
functions confidenceScore and ComputeRankings below. -/
structure ModelEntity where
  name : String
  organization : String
  modalities : Finset Modality := ∅
  metrics : PerformanceMetrics := {}
  signals : List Signal := []
  final_score : ℚ := 0
deriving DecidableEq

/-- std::clamp(v, lo, hi): lo if v < lo, hi if hi < v, otherwise v
(assuming lo ≤ hi). -/
def cclamp {α : Type*} [LinearOrder α] (v lo hi : α) : α := max lo (min v hi)

/-- ModelEntity::AddSignal: a non-positive raw score is dropped, a
positive one is clamped to [0,1] and appended. -/
def AddSignal (e : ModelEntity) (source : String) (score weight : ℚ) : ModelEntity :=
  if 0 < score then
    { e with signals := e.signals ++ [{ source := source, score := cclamp score 0 1, weight := weight }] }
  else e

/-- Sum of score*weight over the signal list (weighted_sum in
ModelEntity::ComputeAggregates). -/
def weightedSum (l : List Signal) : ℚ := (l.map (fun s => s.score * s.weight)).sum

/-- Sum of the weights (total_weight in ModelEntity::ComputeAggregates). -/
def totalWeight (l : List Signal) : ℚ := (l.map Signal.weight).sum

/-- The aggregate score ModelEntity::ComputeAggregates stores in
final_score: 0 when no signals, otherwise the weighted mean guarded by
total_weight > 0. -/
def aggregate (l : List Signal) : ℚ :=
  if l.isEmpty then 0
  else if 0 < totalWeight l then weightedSum l / totalWeight l else 0

/-- Recency tier from staleness (the Recency Bonus block at the end of
ModelEntity::ComputeAggregates): days ≤ 30 → 3, ≤ 90 → 2, ≤ 180 → 1,
else 0. -/
def recencyBonusOf (days : ℤ) : ℕ :=
  if days ≤ 30 then 3 else if days ≤ 90 then 2 else if days ≤ 180 then 1 else 0

/-- ModelEntity::ComputeAggregates as a state transformer: stores the
aggregate in final_score and derives metrics.recency_bonus from
metrics.last_updated_days_ago. -/
def ComputeAggregates (e : ModelEntity) : ModelEntity :=
  { e with final_score := aggregate e.signals,
           metrics := { e.metrics with recency_bonus := recencyBonusOf e.metrics.last_updated_days_ago } }

/-- The shape every signal retained by AddSignal has: clamped score in
(0,1] and the weight as passed. Positive weight holds at both call
sites of the source (0.50 and 0.40). -/
def ValidSignals (l : List Signal) : Prop :=
  ∀ s ∈ l, 0 < s.score ∧ s.score ≤ 1 ∧ 0 < s.weight

theorem validSignals_nil : ValidSignals [] := by
  intro s hs
  cases hs

theorem validSignals_addSignal {e : ModelEntity} {src : String} {sc w : ℚ}
    (hv : ValidSignals e.signals) (hw : 0 < w) :
    ValidSignals (AddSignal e src sc w).signals := by
  unfold AddSignal
  split
  · intro s hs
    rcases List.mem_append.mp hs with h | h
    · exact hv s h
    · rcases List.mem_singleton.mp h with rfl
      refine ⟨?_, ?_, hw⟩
      · exact lt_of_lt_of_le (lt_min (by assumption) one_pos) (le_max_right _ _)
      · exact max_le (by norm_num) (min_le_right _ _)
  · exact hv

theorem totalWeight_pos {l : List Signal} (hv : ValidSignals l) (hne : l ≠ []) :
    0 < totalWeight l := by
  refine List.sum_pos _ ?_ (by simpa using hne)
  intro x hx
  rcases List.mem_map.mp hx with ⟨s, hs, rfl⟩
  exact (hv s hs).2.2

theorem weightedSum_pos {l : List Signal} (hv : ValidSignals l) (hne : l ≠ []) :
    0 < weightedSum l := by
  refine List.sum_pos _ ?_ (by simpa using hne)
  intro x hx
  rcases List.mem_map.mp hx with ⟨s, hs, rfl⟩
  exact mul_pos (hv s hs).1 (hv s hs).2.2

theorem weightedSum_le_totalWeight {l : List Signal} (hv : ValidSignals l) :
    weightedSum l ≤ totalWeight l := by
  refine List.sum_le_sum ?_
  intro s hs
  have h := hv s hs
  calc s.score * s.weight ≤ 1 * s.weight := by
        exact mul_le_mul_of_nonneg_right h.2.1 h.2.2.le
    _ = s.weight := one_mul _

theorem aggregate_pos {l : List Signal} (hv : ValidSignals l) (hne : l ≠ []) :
    0 < aggregate l := by
  unfold aggregate
  rw [if_neg (by simpa using hne), if_pos (totalWeight_pos hv hne)]
  exact div_pos (weightedSum_pos hv hne) (totalWeight_pos hv hne)

theorem aggregate_le_one {l : List Signal} (hv : ValidSignals l) :
    aggregate l ≤ 1 := by
  unfold aggregate
  split
  · norm_num
  · split
    · exact (div_le_one (by assumption)).mpr (weightedSum_le_totalWeight hv)
    · norm_num

/-- Claim C3: for every valid signal set the aggregate lies in [0,1],
on a nonempty set it is exactly the weighted arithmetic mean
weightedSum/totalWeight, and it is zero exactly on the empty set. -/
theorem aggregate_weighted_mean (l : List Signal) (hv : ValidSignals l) :
    0 ≤ aggregate l ∧ aggregate l ≤ 1 ∧
    (l ≠ [] → aggregate l = weightedSum l / totalWeight l) ∧
    (aggregate l = 0 ↔ l = []) := by
  rcases eq_or_ne l [] with rfl | hne
  · refine ⟨le_refl 0, by norm_num [aggregate], ?_, by simp [aggregate]⟩
    intro h
    exact absurd rfl h
  · refine ⟨(aggregate_pos hv hne).le, aggregate_le_one hv, ?_, ?_⟩
    · intro _
      unfold aggregate
      rw [if_neg (by simpa using hne), if_pos (totalWeight_pos hv hne)]
    · constructor
      · intro h
        exact absurd h (ne_of_gt (aggregate_pos hv hne))
      · intro h
        exact absurd h hne

/-- Witness for C3 at the signal list the source builds from a GPQA
score of 0.9 with weight 0.5 and an average score of 0.7 with
weight 0.4 (spec section 8 example). -/
theorem aggregate_weighted_mean_witness :
    ValidSignals [⟨"ZeroEval GPQA", 9/10, 1/2⟩, ⟨"Avg Score", 7/10, 2/5⟩] ∧
    0 ≤ aggregate [⟨"ZeroEval GPQA", 9/10, 1/2⟩, ⟨"Avg Score", 7/10, 2/5⟩] ∧
    aggregate [⟨"ZeroEval GPQA", 9/10, 1/2⟩, ⟨"Avg Score", 7/10, 2/5⟩] ≤ 1 ∧
    aggregate [⟨"ZeroEval GPQA", 9/10, 1/2⟩, ⟨"Avg Score", 7/10, 2/5⟩] = 73/90 := by
  have hv : ValidSignals [⟨"ZeroEval GPQA", 9/10, 1/2⟩, ⟨"Avg Score", 7/10, 2/5⟩] := by
    intro s hs
    simp only [List.mem_cons, List.not_mem_nil, or_false] at hs
    rcases hs with rfl | rfl
    · exact ⟨by norm_num, by norm_num, by norm_num⟩
    · exact ⟨by norm_num, by norm_num, by norm_num⟩
  have h := aggregate_weighted_mean _ hv
  refine ⟨hv, h.1, h.2.1, ?_⟩
  rw [h.2.2.1 (by simp)]
  norm_num [weightedSum, totalWeight]

/-- Recency bonus inside ModelEntity::RecalculateConfidence: +5 when
days ≤ 30, +2.5 when days ≤ 90, else 0. -/
def recencyConfBonus (days : ℤ) : ℚ :=
  if days ≤ 30 then 5 else if days ≤ 90 then 5/2 else 0

/-- Versatility test of RecalculateConfidence: coding and creative both
above 0.75, or a multimodal modality set. -/
def isVersatile (e : ModelEntity) : Prop :=
  ((3:ℚ)/4 < e.metrics.coding_score ∧ (3:ℚ)/4 < e.metrics.creative_score) ∨ 1 < e.modalities.card

instance (e : ModelEntity) : Decidable (isVersatile e) := by
  unfold isVersatile
  infer_instance

/-- Score-quality ladder of RecalculateConfidence on final_score,
evaluated top-down. -/
def scoreQualityBonus (fs : ℚ) : ℚ :=
  if 17/20 < fs then 15
  else if 3/4 < fs then 10
  else if 13/20 < fs then 5
  else if fs < 2/5 then -10
  else 0

/-- All additive bonus and penalty terms of RecalculateConfidence except
the dispersion penalty: base 50, +10 per signal, recency, versatility,
score quality, enterprise readiness. Grouping them ahead of the
dispersion term uses commutativity of addition only. -/
def confBase (e : ModelEntity) : ℚ :=
  50 + (e.signals.length : ℚ) * 10
    + recencyConfBonus e.metrics.last_updated_days_ago
    + (if isVersatile e then 10 else 0)
    + scoreQualityBonus e.final_score
    + (if e.metrics.is_enterprise_ready then 5 else 0)

/-- The scores vector RecalculateConfidence collects from the signals. -/
def signalScores (e : ModelEntity) : List ℚ := e.signals.map Signal.score

/-- The sq_sum accumulated by std::inner_product in
RecalculateConfidence: sum of (x - mean)*(x - mean) over the signal
scores, with mean = final_score. -/
def sqDevSum (e : ModelEntity) : ℚ :=
  ((signalScores e).map (fun x => (x - e.final_score) ^ 2)).sum

/-- The variance variable of RecalculateConfidence, in fact a population
standard deviation: sqrt(sq_sum / n) when more than one signal, else 0. -/
noncomputable def signalStdDev (e : ModelEntity) : ℝ :=
  if 1 < (signalScores e).length then
    Real.sqrt ((sqDevSum e : ℝ) / ((signalScores e).length : ℝ))
  else 0

/-- ModelEntity::RecalculateConfidence: 10 with no signals, otherwise
the additive terms minus variance*50, clamped to [10,99]. -/
noncomputable def confidenceScore (e : ModelEntity) : ℝ :=
  if e.signals.isEmpty then 10
  else cclamp ((confBase e : ℝ) - signalStdDev e * 50) 10 99

/-- The rationale string built by RecalculateConfidence: empty when no
signals (the reason is reset at entry and the signal branch skipped),
otherwise the recency, versatility and consensus fragments in order. -/
def confidenceReason (e : ModelEntity) : String :=
  if e.signals.isEmpty then ""
  else
    (if e.metrics.last_updated_days_ago ≤ 30 then "Recent Verification, " else "")
      ++ (if isVersatile e then "Multi-Category Verified, " else "")
      ++ (if 3 ≤ e.signals.length then "High Consensus" else "")

theorem recencyConfBonus_nonneg (d : ℤ) : 0 ≤ recencyConfBonus d := by
  unfold recencyConfBonus
  split
  · norm_num
  · split <;> norm_num

theorem scoreQualityBonus_lower (fs : ℚ) : -10 ≤ scoreQualityBonus fs := by
  unfold scoreQualityBonus
  split
  · norm_num
  · split
    · norm_num
    · split
      · norm_num
      · split <;> norm_num

theorem confBase_lower (e : ModelEntity) :
    40 + (e.signals.length : ℚ) * 10 ≤ confBase e := by
  unfold confBase
  have h1 := recencyConfBonus_nonneg e.metrics.last_updated_days_ago
  have h2 : (0:ℚ) ≤ if isVersatile e then 10 else 0 := by split <;> norm_num
  have h3 := scoreQualityBonus_lower e.final_score
  have h4 : (0:ℚ) ≤ if e.metrics.is_enterprise_ready then 5 else 0 := by split <;> norm_num
  linarith

theorem list_sum_lt_length {l : List ℚ} (hne : l ≠ []) (h : ∀ x ∈ l, x < 1) :
    l.sum < (l.length : ℚ) := by
  induction l with
  | nil => exact absurd rfl hne
  | cons a t ih =>
    rcases eq_or_ne t [] with rfl | hte
    · simpa using h a (by simp)
    · have ha := h a (by simp)
      have ht := ih hte (fun x hx => h x (by simp [hx]))
      simp only [List.sum_cons, List.length_cons]
      push_cast
      linarith

theorem sqDevSum_lt_length {e : ModelEntity} (hv : ValidSignals e.signals)
    (hfs : e.final_score = aggregate e.signals) (hne : e.signals ≠ []) :
    sqDevSum e < (e.signals.length : ℚ) := by
  have hfs0 : 0 < e.final_score := hfs ▸ aggregate_pos hv hne
  have hfs1 : e.final_score ≤ 1 := hfs ▸ aggregate_le_one hv
  have hlen : ((signalScores e).map (fun x => (x - e.final_score) ^ 2)).length
      = e.signals.length := by simp [signalScores]
  have hlt : ∀ y ∈ (signalScores e).map (fun x => (x - e.final_score) ^ 2), y < 1 := by
    intro y hy
    rcases List.mem_map.mp hy with ⟨x, hx, rfl⟩
    rcases List.mem_map.mp hx with ⟨s, hs, rfl⟩
    have h1 := (hv s hs).1
    have h2 := (hv s hs).2.1
    exact (sq_lt_one_iff_abs_lt_one _).mpr (abs_lt.mpr ⟨by linarith, by linarith⟩)
  have hmapne : (signalScores e).map (fun x => (x - e.final_score) ^ 2) ≠ [] := by
    simp [signalScores, hne]
  have := list_sum_lt_length hmapne hlt
  rw [hlen] at this
  exact this

theorem signalStdDev_nonneg (e : ModelEntity) : 0 ≤ signalStdDev e := by
  unfold signalStdDev
  split
  · exact Real.sqrt_nonneg _
  · exact le_refl 0

theorem signalStdDev_lt_one {e : ModelEntity} (hv : ValidSignals e.signals)
    (hfs : e.final_score = aggregate e.signals) (hne : e.signals ≠ []) :
    signalStdDev e < 1 := by
  unfold signalStdDev
  split
  · next h =>
    refine (Real.sqrt_lt' one_pos).mpr ?_
    rw [one_pow]
    have hpos : (0:ℝ) < ((signalScores e).length : ℝ) := by
      exact_mod_cast Nat.zero_lt_of_lt h
    rw [div_lt_one hpos]
    have hlen : (signalScores e).length = e.signals.length := by simp [signalScores]
    rw [hlen]
    exact_mod_cast sqDevSum_lt_length hv hfs hne
  · exact one_pos

theorem signalStdDev_eq_zero_of_single {e : ModelEntity}
    (h : e.signals.length ≤ 1) : signalStdDev e = 0 := by
  unfold signalStdDev
  rw [if_neg]
  simp only [signalScores, List.length_map]
  omega

/-- Claim C2: the confidence value is always in [10,99], and it equals
exactly 10 if and only if the record has no retained signals (with zero
signals the bonus and penalty steps are skipped and 10 is returned).
The hypotheses state that the signal list was built by AddSignal and
that final_score is the aggregate ComputeAggregates stored, as on every
path of IntelligenceEngine::Run; metrics and modalities (the enrichment
input) are arbitrary. -/
theorem confidence_range_floor (e : ModelEntity) (hv : ValidSignals e.signals)
    (hfs : e.final_score = aggregate e.signals) :
    10 ≤ confidenceScore e ∧ confidenceScore e ≤ 99 ∧
    (confidenceScore e = 10 ↔ e.signals = []) := by
  rcases eq_or_ne e.signals [] with hnil | hne
  · have h10 : confidenceScore e = 10 := by simp [confidenceScore, hnil]
    refine ⟨le_of_eq h10.symm, ?_, ?_⟩
    · rw [h10]
      norm_num
    · simp [h10, hnil]
  · have hlen1 : 1 ≤ e.signals.length := List.length_pos.mpr hne
    have hX : (10 : ℝ) < (confBase e : ℝ) - signalStdDev e * 50 := by
      have hb : (40 : ℝ) + (e.signals.length : ℝ) * 10 ≤ (confBase e : ℝ) := by
        exact_mod_cast confBase_lower e
      rcases Nat.lt_or_ge e.signals.length 2 with hlt | hge
      · have hσ : signalStdDev e = 0 := signalStdDev_eq_zero_of_single (by omega)
        rw [hσ]
        have : (1:ℝ) ≤ (e.signals.length : ℝ) := by exact_mod_cast hlen1
        linarith
      · have hσ := signalStdDev_lt_one hv hfs hne
        have h2 : (2:ℝ) ≤ (e.signals.length : ℝ) := by exact_mod_cast hge
        linarith
    have hconf : confidenceScore e = max 10 (min ((confBase e : ℝ) - signalStdDev e * 50) 99) := by
      unfold confidenceScore cclamp
      rw [if_neg (by simpa using hne)]
    refine ⟨?_, ?_, ?_⟩
    · rw [hconf]
      exact le_max_left _ _
    · rw [hconf]
      exact max_le (by norm_num) (min_le_right _ _)
    · constructor
      · intro h
        rcases le_or_lt ((confBase e : ℝ) - signalStdDev e * 50) 99 with hle | hgt
        · rw [hconf, min_eq_left hle, max_eq_right hX.le] at h
          exact absurd h (ne_of_gt hX)
        · rw [hconf, min_eq_right hgt.le] at h
          norm_num at h
      · intro h
        exact absurd h hne

/-- Concrete record for the C2 witness: one retained GPQA signal of
score 0.5 and weight 0.5, stale metrics, text-only modality. -/
def c2Entity : ModelEntity :=
  { name := "m", organization := "o", modalities := {Modality.Text},
    metrics := { last_updated_days_ago := 200 },
    signals := [⟨"ZeroEval GPQA", 1/2, 1/2⟩], final_score := 1/2 }

/-- Witness for C2 at c2Entity. -/
theorem confidence_range_floor_witness :
    ValidSignals c2Entity.signals ∧
    c2Entity.final_score = aggregate c2Entity.signals ∧
    (10 ≤ confidenceScore c2Entity ∧ confidenceScore c2Entity ≤ 99 ∧
      (confidenceScore c2Entity = 10 ↔ c2Entity.signals = [])) := by
  have hv : ValidSignals c2Entity.signals := by
    intro s hs
    simp only [c2Entity, List.mem_cons, List.not_mem_nil, or_false] at hs
    subst hs
    exact ⟨by norm_num, by norm_num, by norm_num⟩
  have hfs : c2Entity.final_score = aggregate c2Entity.signals := by
    norm_num [c2Entity, aggregate, weightedSum, totalWeight]
  exact ⟨hv, hfs, confidence_range_floor c2Entity hv hfs⟩

/-- The eight view scores (struct RankScores). -/
structure RankScores where
  overall : ℝ
  value : ℝ
  coding : ℝ
  image : ℝ
  video : ℝ
  speed : ℝ
  confidence : ℝ
  enterprise : ℝ

/-- ModelEntity::ComputeRankings, with confidence_score supplied by the
derived confidenceScore (RecalculateConfidence always runs first). -/
noncomputable def ComputeRankings (e : ModelEntity) : RankScores :=
  let conf_factor : ℝ := confidenceScore e / 100
  let price_factor : ℝ := 1 / (1 + (e.metrics.price_input_1m : ℝ) / 10)
  let fs : ℝ := (e.final_score : ℝ)
  let speed_norm : ℝ := cclamp ((e.metrics.tokens_per_sec : ℝ) / 150) 0 1
  { overall := (fs * 0.40 + (e.metrics.coding_score : ℝ) * 0.20
      + (e.metrics.creative_score : ℝ) * 0.15 + conf_factor * 0.15 + price_factor * 0.10) * 100,
    value := if (e.metrics.price_input_1m : ℝ) ≤ 0 then fs * 1000
      else fs * fs / (Real.logb 10 ((e.metrics.price_input_1m : ℝ) + 1) + 0.1),
    coding := ((e.metrics.coding_score : ℝ) * 0.6 + (e.metrics.reasoning_score : ℝ) * 0.2
      + cclamp ((e.metrics.context_window : ℝ) / 200000) 0 1 * 0.1 + conf_factor * 0.1) * 100,
    image := if Modality.Image ∈ e.modalities then
        (fs * 0.5 + (e.metrics.creative_score : ℝ) * 0.3 + speed_norm * 0.1 + conf_factor * 0.1) * 100
      else 0,
    video := if Modality.Video ∈ e.modalities then
        (fs * 0.5 + (e.metrics.creative_score : ℝ) * 0.3 + conf_factor * 0.1 + speed_norm * 0.1) * 100
      else ((fs * 0.5 + (e.metrics.creative_score : ℝ) * 0.3 + conf_factor * 0.1 + speed_norm * 0.1) * 100) * 0.3,
    speed := (cclamp ((e.metrics.tokens_per_sec : ℝ) / 200) 0 1 * 0.7
      + conf_factor * 0.2 + price_factor * 0.1) * 100,
    confidence := confidenceScore e,
    enterprise := (conf_factor * 0.4 + (e.metrics.uptime_sla : ℝ) * 0.3
      + (e.metrics.org_maturity : ℝ) * 0.3) * 100 }

theorem value_def (e : ModelEntity) :
    (ComputeRankings e).value =
      if (e.metrics.price_input_1m : ℝ) ≤ 0 then (e.final_score : ℝ) * 1000
      else (e.final_score : ℝ) * (e.final_score : ℝ)
        / (Real.logb 10 ((e.metrics.price_input_1m : ℝ) + 1) + 0.1) := rfl

theorem coding_def (e : ModelEntity) :
    (ComputeRankings e).coding =
      ((e.metrics.coding_score : ℝ) * 0.6 + (e.metrics.reasoning_score : ℝ) * 0.2
        + cclamp ((e.metrics.context_window : ℝ) / 200000) 0 1 * 0.1
        + confidenceScore e / 100 * 0.1) * 100 := rfl

theorem image_def (e : ModelEntity) :
    (ComputeRankings e).image =
      if Modality.Image ∈ e.modalities then
        ((e.final_score : ℝ) * 0.5 + (e.metrics.creative_score : ℝ) * 0.3
          + cclamp ((e.metrics.tokens_per_sec : ℝ) / 150) 0 1 * 0.1
          + confidenceScore e / 100 * 0.1) * 100
      else 0 := rfl

theorem video_def (e : ModelEntity) :
    (ComputeRankings e).video =
      if Modality.Video ∈ e.modalities then
        ((e.final_score : ℝ) * 0.5 + (e.metrics.creative_score : ℝ) * 0.3
          + confidenceScore e / 100 * 0.1
          + cclamp ((e.metrics.tokens_per_sec : ℝ) / 150) 0 1 * 0.1) * 100
      else (((e.final_score : ℝ) * 0.5 + (e.metrics.creative_score : ℝ) * 0.3
          + confidenceScore e / 100 * 0.1
          + cclamp ((e.metrics.tokens_per_sec : ℝ) / 150) 0 1 * 0.1) * 100) * 0.3 := rfl

/-- Claim C6: the image rank is the 0.5/0.3/0.1/0.1 combination of
aggregate, creative, speedNorm = clamp(tokens_per_sec/150, 0, 1) and
confidence/100, scaled to 100, and is forced to exactly 0 when Image is
missing from the modality set; the video rank is the same combination,
multiplied by 0.3 instead of zeroed when Video is missing. -/
theorem image_video_ranks (e : ModelEntity) :
    (ComputeRankings e).image =
      (if Modality.Image ∈ e.modalities then
        ((e.final_score : ℝ) * 0.5 + (e.metrics.creative_score : ℝ) * 0.3
          + cclamp ((e.metrics.tokens_per_sec : ℝ) / 150) 0 1 * 0.1
          + confidenceScore e / 100 * 0.1) * 100
      else 0) ∧
    (ComputeRankings e).video =
      (if Modality.Video ∈ e.modalities then 1 else 0.3) *
        (((e.final_score : ℝ) * 0.5 + (e.metrics.creative_score : ℝ) * 0.3
          + cclamp ((e.metrics.tokens_per_sec : ℝ) / 150) 0 1 * 0.1
          + confidenceScore e / 100 * 0.1) * 100) := by
  constructor
  · rw [image_def]
  · rw [video_def]
    split <;> ring

/-- Claim C5: with price 0 the value rank is aggregate*1000, in
particular 600 at aggregate 0.6; any record with positive price has
value rank strictly below 600 (its value is below 10), so the free
record beats every priced one. -/
theorem value_rank_spec (e : ModelEntity) :
    (e.metrics.price_input_1m = 0 → (ComputeRankings e).value = (e.final_score : ℝ) * 1000) ∧
    (e.metrics.price_input_1m = 0 → e.final_score = 3/5 → (ComputeRankings e).value = 600) ∧
    (0 < e.metrics.price_input_1m → 0 ≤ e.final_score → e.final_score ≤ 1 →
      (ComputeRankings e).value < 600) := by
  refine ⟨?_, ?_, ?_⟩
  · intro hp
    rw [value_def, if_pos (by rw [hp]; norm_num)]
  · intro hp hfs
    rw [value_def, if_pos (by rw [hp]; norm_num), hfs]
    norm_num
  · intro hp h0 h1
    have hpR : (0:ℝ) < (e.metrics.price_input_1m : ℝ) := by exact_mod_cast hp
    rw [value_def, if_neg (by push_neg; exact hpR)]
    have hL : 0 < Real.logb 10 ((e.metrics.price_input_1m : ℝ) + 1) :=
      Real.logb_pos (by norm_num) (by linarith)
    have hd : (0:ℝ) < Real.logb 10 ((e.metrics.price_input_1m : ℝ) + 1) + 0.1 := by linarith
    have hfs0 : (0:ℝ) ≤ (e.final_score : ℝ) := by exact_mod_cast h0
    have hfs1 : (e.final_score : ℝ) ≤ 1 := by exact_mod_cast h1
    have hnum : (e.final_score : ℝ) * (e.final_score : ℝ) ≤ 1 := by nlinarith
    calc (e.final_score : ℝ) * (e.final_score : ℝ)
          / (Real.logb 10 ((e.metrics.price_input_1m : ℝ) + 1) + 0.1)
        ≤ 1 / (Real.logb 10 ((e.metrics.price_input_1m : ℝ) + 1) + 0.1) :=
          (div_le_div_iff_of_pos_right hd).mpr hnum
      _ < 600 := by
          rw [div_lt_iff₀ hd]
          nlinarith

/-- Free record with aggregate 0.6 for the C5 witness. -/
def c5Free : ModelEntity :=
  { name := "free", organization := "o", signals := [⟨"ZeroEval GPQA", 3/5, 1/2⟩],
    final_score := 3/5 }

/-- Priced record (price 9 per 1M tokens) with aggregate 0.6 for the C5
witness. -/
def c5Paid : ModelEntity :=
  { name := "paid", organization := "o", metrics := { price_input_1m := 9 },
    signals := [⟨"ZeroEval GPQA", 3/5, 1/2⟩], final_score := 3/5 }

/-- Witness for C5: the free record scores exactly 600 and the priced
record scores strictly below 600. -/
theorem value_rank_spec_witness :
    (ComputeRankings c5Free).value = 600 ∧ (ComputeRankings c5Paid).value < 600 := by
  constructor
  · exact (value_rank_spec c5Free).2.1 rfl rfl
  · exact (value_rank_spec c5Paid).2.2 (by norm_num [c5Paid]) (by norm_num [c5Free, c5Paid]) (by norm_num [c5Paid])

/-- Claim C7: with the same signal count, the same stored aggregate,
identical metrics and the same modality set (metrics and modalities
together are the enrichment output), the record whose signal scores
have the higher population standard deviation around the aggregate
never gets the higher confidence: every term of RecalculateConfidence
other than the dispersion penalty agrees and the clamp is monotone. -/
theorem dispersion_never_higher (e1 e2 : ModelEntity)
    (hlen : e1.signals.length = e2.signals.length)
    (hfs : e1.final_score = e2.final_score)
    (hm : e1.metrics = e2.metrics)
    (hmod : e1.modalities = e2.modalities)
    (hσ : signalStdDev e1 ≤ signalStdDev e2) :
    confidenceScore e2 ≤ confidenceScore e1 := by
  rcases eq_or_ne e1.signals [] with hnil | hne
  · have hnil2 : e2.signals = [] := by
      refine List.length_eq_zero.mp ?_
      rw [← hlen, hnil]
      rfl
    simp [confidenceScore, hnil, hnil2]
  · have hne2 : e2.signals ≠ [] := by
      intro h
      refine hne (List.length_eq_zero.mp ?_)
      rw [hlen, h]
      rfl
    have hbase : confBase e1 = confBase e2 := by
      simp only [confBase, recencyConfBonus, scoreQualityBonus, isVersatile, hlen, hfs, hm, hmod]
    have h1 : confidenceScore e1 = cclamp ((confBase e1 : ℝ) - signalStdDev e1 * 50) 10 99 := by
      unfold confidenceScore
      rw [if_neg (by simpa using hne)]
    have h2 : confidenceScore e2 = cclamp ((confBase e1 : ℝ) - signalStdDev e2 * 50) 10 99 := by
      unfold confidenceScore
      rw [if_neg (by simpa using hne2), hbase]
    rw [h1, h2]
    unfold cclamp
    have harg : (confBase e1 : ℝ) - signalStdDev e2 * 50
        ≤ (confBase e1 : ℝ) - signalStdDev e1 * 50 := by linarith
    exact max_le_max (le_refl 10) (min_le_min harg (le_refl 99))

/-- Record with two agreeing signals (scores 0.5 and 0.5, aggregate
0.5, deviation 0) for the C7 witness. -/
def c7Low : ModelEntity :=
  { name := "low", organization := "o",
    signals := [⟨"ZeroEval GPQA", 1/2, 1/2⟩, ⟨"Avg Score", 1/2, 1/2⟩], final_score := 1/2 }

/-- Record with two disagreeing signals (scores 0.3 and 0.7, aggregate
0.5, positive deviation) for the C7 witness. -/
def c7High : ModelEntity :=
  { name := "high", organization := "o",
    signals := [⟨"ZeroEval GPQA", 3/10, 1/2⟩, ⟨"Avg Score", 7/10, 1/2⟩], final_score := 1/2 }

/-- Witness for C7 at the pair c7Low, c7High. -/
theorem dispersion_never_higher_witness :
    signalStdDev c7Low ≤ signalStdDev c7High ∧
    confidenceScore c7High ≤ confidenceScore c7Low := by
  have hlow : signalStdDev c7Low = 0 := by
    unfold signalStdDev
    rw [if_pos (by norm_num [signalScores, c7Low])]
    have h0 : (sqDevSum c7Low : ℝ) = 0 := by
      norm_num [sqDevSum, signalScores, c7Low]
    rw [h0, zero_div, Real.sqrt_zero]
  have hσ : signalStdDev c7Low ≤ signalStdDev c7High := by
    rw [hlow]
    exact signalStdDev_nonneg c7High
  exact ⟨hσ, dispersion_never_higher c7Low c7High rfl rfl rfl rfl hσ⟩

/-- A JSON numeric field as seen through Utils::TryGetDouble: val x for
a native number or a numeric string parsing to x, bad for a present but
unparseable value, absent for a missing or null key. -/
inductive JsonNum where
  | absent
  | bad
  | val (x : ℚ)
deriving DecidableEq

/-- Utils::TryGetDouble over the JsonNum view of a field. -/
def tryGetDouble : JsonNum → Option ℚ
  | .val x => some x
  | _ => none

/-- The context-window branch of KnowledgeBase::Enrich: a parsed
context_length is stored as min(1, tokens/200000); without it the
fallback is 0.5, or 0.8 when the lowered name mentions 128k or 200k
(that substring test is abstracted by the flag nameHasCtxHint). -/
def enrichContextWindow (ctx : JsonNum) (nameHasCtxHint : Bool) : ℚ :=
  match tryGetDouble ctx with
  | some v => min 1 (v / 200000)
  | none => if nameHasCtxHint then 4/5 else 1/2

/-- Following the words of claim C4 and spec section 4.3, NOT the code:
the coding view with ctxNorm computed from the raw token count as
clamp(tokens/200000, 0, 1). -/
noncomputable def codingRankSpec (rawTokens : ℚ) (e : ModelEntity) : ℝ :=
  ((e.metrics.coding_score : ℝ) * 0.6 + (e.metrics.reasoning_score : ℝ) * 0.2
    + cclamp ((rawTokens : ℝ) / 200000) 0 1 * 0.1 + confidenceScore e / 100 * 0.1) * 100

/-- Record enriched from a raw context_length of 200000 tokens, with
one GPQA signal of score 0.5. -/
def c4Entity : ModelEntity :=
  { name := "model", organization := "o", modalities := {Modality.Text},
    metrics := { context_window := enrichContextWindow (JsonNum.val 200000) false,
                 last_updated_days_ago := 200 },
    signals := [⟨"ZeroEval GPQA", 1/2, 1/2⟩], final_score := 1/2 }

theorem c4Entity_conf : confidenceScore c4Entity = 60 := by
  have hσ : signalStdDev c4Entity = 0 :=
    signalStdDev_eq_zero_of_single (by norm_num [c4Entity])
  have hver : ¬ isVersatile c4Entity := by
    unfold isVersatile
    norm_num [c4Entity]
  have hb : confBase c4Entity = 60 := by
    unfold confBase recencyConfBonus scoreQualityBonus
    rw [if_neg hver]
    norm_num [c4Entity]
  unfold confidenceScore
  rw [if_neg (by simp [c4Entity])]
  rw [hσ, hb]
  unfold cclamp
  rw [show ((60:ℚ):ℝ) - 0 * 50 = 60 by norm_num]
  rw [min_eq_left (by norm_num), max_eq_right (by norm_num)]

/-- Claim C4 is false on the code (code bug): KnowledgeBase::Enrich
already normalizes the context window to min(1, tokens/200000) and
ModelEntity::ComputeRankings divides the stored value by 200000 again,
so for a record whose context_length parses to 200000 tokens the coding
rank is 6.00005 while the claimed formula gives 16; the 0.1 context
weight of the coding view is effectively dead. -/
theorem coding_ctx_double_normalization :
    enrichContextWindow (JsonNum.val 200000) false = 1 ∧
    (ComputeRankings c4Entity).coding = 120001 / 20000 ∧
    codingRankSpec 200000 c4Entity = 16 ∧
    (ComputeRankings c4Entity).coding ≠ codingRankSpec 200000 c4Entity := by
  have hctx : enrichContextWindow (JsonNum.val 200000) false = 1 := by
    norm_num [enrichContextWindow, tryGetDouble]
  have hcwin : (c4Entity.metrics.context_window : ℝ) = 1 := by
    rw [show c4Entity.metrics.context_window = enrichContextWindow (JsonNum.val 200000) false from rfl]
    rw [hctx]
    norm_num
  have hclamp : cclamp ((1:ℝ) / 200000) 0 1 = 1 / 200000 := by
    unfold cclamp
    rw [min_eq_left (by norm_num), max_eq_right (by norm_num)]
  have hcod : (ComputeRankings c4Entity).coding = 120001 / 20000 := by
    rw [coding_def, c4Entity_conf, hcwin, hclamp]
    norm_num [c4Entity]
  have hspec : codingRankSpec 200000 c4Entity = 16 := by
    unfold codingRankSpec
    rw [c4Entity_conf]
    have h1 : cclamp (((200000:ℚ):ℝ) / 200000) 0 1 = 1 := by
      unfold cclamp
      norm_num
    rw [h1]
    norm_num [c4Entity]
  refine ⟨hctx, hcod, hspec, ?_⟩
  rw [hcod, hspec]
  norm_num

/-- Config::Weights::TIE_THRESHOLD. -/
def TIE_THRESHOLD : ℝ := 0.005

/-- The tieBreakerSort lambda of DataExporter::ExportCSV; the scores
passed at its call sites are rank values on the 0-100 scale. -/
def tieBreakerSortCSV (a b : ModelEntity) (scoreA scoreB : ℝ) : Prop :=
  if |scoreA - scoreB| ≤ TIE_THRESHOLD then b.metrics.recency_bonus < a.metrics.recency_bonus
  else scoreB < scoreA

/-- The tieBreakerSort lambda of DataExporter::ExportLegacyText:
threshold TIE_THRESHOLD*100, and the call site passes the overall rank
values additionally multiplied by 100. -/
def tieBreakerSortLegacy (a b : ModelEntity) (scoreA scoreB : ℝ) : Prop :=
  if |scoreA - scoreB| ≤ TIE_THRESHOLD * 100 then b.metrics.recency_bonus < a.metrics.recency_bonus
  else scoreB < scoreA

/-- The default sort comparator of the dashboard (renderCurrentView in
the emitted leaderboard.html): hard-coded threshold 0.5 applied to the
clamped 0-100 rank values. -/
def dashboardSort (a b : ModelEntity) (scoreA scoreB : ℝ) : Prop :=
  if |scoreA - scoreB| ≤ 0.5 then b.metrics.recency_bonus < a.metrics.recency_bonus
  else scoreB < scoreA

/-- Record with recency tier 0 for C1. -/
def c1A : ModelEntity := { name := "a", organization := "o", metrics := { recency_bonus := 0 } }

/-- Record with recency tier 3 for C1. -/
def c1B : ModelEntity := { name := "b", organization := "o", metrics := { recency_bonus := 3 } }

/-- Claim C1 is false on the code (code bug): with overall scores 80.3
and 80.0 on the 0-100 scale (difference 0.3), the CSV and legacy text
exports order the higher-score record first (their effective tie band
is 0.005 points on that scale), while the dashboard applies its recency
tie-break inside a 0.5-point band and orders the fresher record first.
The cutoff is not shared: the export paths diverge by a factor of 100,
against the header comment of scraper.cpp (tie-breaker only if scores
are within 0.5) and the consistency comment in the dashboard script. -/
theorem tie_threshold_divergence :
    tieBreakerSortCSV c1A c1B 80.3 80 ∧
    tieBreakerSortLegacy c1A c1B (80.3 * 100) (80 * 100) ∧
    ¬ dashboardSort c1A c1B 80.3 80 ∧
    dashboardSort c1B c1A 80 80.3 := by
  have habs1 : |(80.3:ℝ) - 80| = 0.3 := by
    rw [abs_of_nonneg (by norm_num)]
    norm_num
  have habs2 : |(80.3:ℝ) * 100 - 80 * 100| = 30 := by
    rw [abs_of_nonneg (by norm_num)]
    norm_num
  have habs3 : |(80:ℝ) - 80.3| = 0.3 := by
    rw [abs_of_nonpos (by norm_num)]
    norm_num
  refine ⟨?_, ?_, ?_, ?_⟩
  · unfold tieBreakerSortCSV TIE_THRESHOLD
    rw [if_neg (by rw [habs1]; norm_num)]
    norm_num
  · unfold tieBreakerSortLegacy TIE_THRESHOLD
    rw [if_neg (by rw [habs2]; norm_num)]
    norm_num
  · unfold dashboardSort
    rw [if_pos (by rw [habs1]; norm_num)]
    simp [c1A, c1B]
  · unfold dashboardSort
    rw [if_pos (by rw [habs3]; norm_num)]
    simp [c1A, c1B]

/-- The name field of a raw record: absent or null, present but not a
string, or a string value. -/
inductive JsonStr where
  | absent
  | notString
  | str (s : String)
deriving DecidableEq

/-- One raw record of the fetched array, restricted to the fields the
ingestion loop of IntelligenceEngine::Run reads before enrichment. -/
structure RawItem where
  name : JsonStr
  organization : Option String := none
  gpqa_score : JsonNum := JsonNum.absent
  average_score : JsonNum := JsonNum.absent
deriving DecidableEq

/-- The signal-attachment step of IntelligenceEngine::Run: gpqa_score
is tried first and, only when it does not parse at all, average_score;
a value that parses outside [0,1] attaches nothing. -/
def ingestSignals (item : RawItem) (e : ModelEntity) : ModelEntity :=
  match tryGetDouble item.gpqa_score with
  | some s => if 0 ≤ s ∧ s ≤ 1 then AddSignal e "ZeroEval GPQA" s (1/2) else e
  | none =>
    match tryGetDouble item.average_score with
    | some s => if 0 ≤ s ∧ s ≤ 1 then AddSignal e "Avg Score" s (2/5) else e
    | none => e

/-- The per-record pipeline of IntelligenceEngine::Run after the name
checks: create, attach at most one signal, ComputeAggregates, then
KnowledgeBase::Enrich. Enrich writes only the metrics fields and the
modality set (never signals, final_score or recency_bonus), so its
output is abstracted by the values em and mods, while recency_bonus
keeps the value ComputeAggregates derived before enrichment ran. -/
def buildEntity (em : PerformanceMetrics) (mods : Finset Modality)
    (item : RawItem) (name org : String) : ModelEntity :=
  let e2 := ComputeAggregates (ingestSignals item { name := name, organization := org })
  { e2 with metrics := { em with recency_bonus := e2.metrics.recency_bonus },
            modalities := mods }

theorem buildEntity_signals (em : PerformanceMetrics) (mods : Finset Modality)
    (item : RawItem) (n o : String) :
    (buildEntity em mods item n o).signals =
      (ingestSignals item { name := n, organization := o }).signals := rfl

theorem buildEntity_final (em : PerformanceMetrics) (mods : Finset Modality)
    (item : RawItem) (n o : String) :
    (buildEntity em mods item n o).final_score =
      aggregate (ingestSignals item { name := n, organization := o }).signals := rfl

theorem ingestSignals_gpqa (item : RawItem) (e : ModelEntity) {s : ℚ}
    (hg : tryGetDouble item.gpqa_score = some s) :
    ingestSignals item e = if 0 ≤ s ∧ s ≤ 1 then AddSignal e "ZeroEval GPQA" s (1/2) else e := by
  unfold ingestSignals
  rw [hg]

theorem ingestSignals_avg (item : RawItem) (e : ModelEntity) {s : ℚ}
    (hg : tryGetDouble item.gpqa_score = none)
    (ha : tryGetDouble item.average_score = some s) :
    ingestSignals item e = if 0 ≤ s ∧ s ≤ 1 then AddSignal e "Avg Score" s (2/5) else e := by
  unfold ingestSignals
  rw [hg, ha]

theorem ingestSignals_noparse (item : RawItem) (e : ModelEntity)
    (hg : tryGetDouble item.gpqa_score = none)
    (ha : tryGetDouble item.average_score = none) :
    ingestSignals item e = e := by
  unfold ingestSignals
  rw [hg, ha]

theorem addSignal_length_le (e : ModelEntity) (src : String) (sc w : ℚ)
    (he : e.signals = []) : (AddSignal e src sc w).signals.length ≤ 1 := by
  unfold AddSignal
  split
  · simp [he]
  · simp [he]

/-- Registry and counters of the ingestion loop. -/
structure IngestState where
  registry : List ModelEntity := []
  processed : ℕ := 0
  skipped : ℕ := 0
deriving DecidableEq

/-- One iteration of the ingestion loop of IntelligenceEngine::Run:
missing, null, non-string or empty names are skipped with the counter
incremented; a name already present in the registry is skipped
silently; otherwise the record is built and appended exactly when its
aggregate is positive (processed is incremented only then). -/
def runStep (em : PerformanceMetrics) (mods : Finset Modality)
    (st : IngestState) (item : RawItem) : IngestState :=
  match item.name with
  | .str name =>
    if name = "" then { st with skipped := st.skipped + 1 }
    else if st.registry.any (fun r => r.name == name) then st
    else
      let e := buildEntity em mods item name (item.organization.getD "Unknown")
      if 0 < e.final_score then
        { st with registry := st.registry ++ [e], processed := st.processed + 1 }
      else st
  | _ => { st with skipped := st.skipped + 1 }

/-- Claim C9: during ingestion a raw record whose name equals the name
of an already accepted record is silently skipped, leaving the whole
state (registry and both counters) unchanged, while a record with a
missing, null, non-string or empty name is skipped and increments the
skipped counter. -/
theorem duplicate_and_malformed_handling (em : PerformanceMetrics) (mods : Finset Modality)
    (st : IngestState) (item : RawItem) :
    (∀ n, item.name = JsonStr.str n → n ≠ "" →
      st.registry.any (fun r => r.name == n) = true →
      runStep em mods st item = st) ∧
    (item.name = JsonStr.absent ∨ item.name = JsonStr.notString ∨ item.name = JsonStr.str "" →
      runStep em mods st item = { st with skipped := st.skipped + 1 }) := by
  constructor
  · intro n hn hne hdup
    simp [runStep, hn, hne, hdup]
  · intro h
    rcases h with h | h | h <;> simp [runStep, h]

/-- Already accepted record named m for the C9 witness. -/
def c9Accepted : ModelEntity := { name := "m", organization := "o" }

/-- Raw record duplicating the accepted name m. -/
def c9Dup : RawItem := { name := JsonStr.str "m" }

/-- Raw record with a non-string name field. -/
def c9Bad : RawItem := { name := JsonStr.notString }

/-- Witness for C9: the duplicate leaves the state untouched, the
malformed record increments the skipped counter. -/
theorem duplicate_and_malformed_handling_witness :
    runStep {} ∅ { registry := [c9Accepted] } c9Dup = { registry := [c9Accepted] } ∧
    runStep {} ∅ { registry := [c9Accepted] } c9Bad =
      { ({ registry := [c9Accepted] } : IngestState) with
          skipped := ({ registry := [c9Accepted] } : IngestState).skipped + 1 } := by
  constructor
  · exact (duplicate_and_malformed_handling {} ∅ { registry := [c9Accepted] } c9Dup).1
      "m" rfl (by decide) (by decide)
  · exact (duplicate_and_malformed_handling {} ∅ { registry := [c9Accepted] } c9Bad).2
      (Or.inr (Or.inl rfl))

/-- Claim C8: for an accepted (string, nonempty, non-duplicate) name
the record is appended to the registry exactly when its aggregate
final_score is strictly positive; with zero retained signals the
aggregate is 0, the confidence is 10, and the record is never added
even though fully enriched (em and mods are arbitrary enrichment
outputs). -/
theorem registry_persistence (em : PerformanceMetrics) (mods : Finset Modality)
    (st : IngestState) (item : RawItem) (n : String)
    (hn : item.name = JsonStr.str n) (hne : n ≠ "")
    (hdup : st.registry.any (fun r => r.name == n) = false) :
    ((buildEntity em mods item n (item.organization.getD "Unknown")).signals = [] →
      (buildEntity em mods item n (item.organization.getD "Unknown")).final_score = 0 ∧
      confidenceScore (buildEntity em mods item n (item.organization.getD "Unknown")) = 10 ∧
      runStep em mods st item = st) ∧
    (runStep em mods st item =
        { st with
            registry := st.registry ++ [buildEntity em mods item n (item.organization.getD "Unknown")],
            processed := st.processed + 1 }
      ↔ 0 < (buildEntity em mods item n (item.organization.getD "Unknown")).final_score) := by
  constructor
  · intro hsig
    have hfin : (buildEntity em mods item n (item.organization.getD "Unknown")).final_score = 0 := by
      rw [buildEntity_final]
      have h0 : (ingestSignals item { name := n, organization := item.organization.getD "Unknown" }).signals = [] := hsig
      rw [h0]
      simp [aggregate]
    refine ⟨hfin, by simp [confidenceScore, hsig], ?_⟩
    simp [runStep, hn, hne, hdup, hfin]
  · constructor
    · intro heq
      by_contra hneg
      have hst : runStep em mods st item = st := by
        simp [runStep, hn, hne, hdup, hneg]
      rw [hst] at heq
      have hreg := congrArg IngestState.registry heq
      simp only [] at hreg
      have hlen := congrArg List.length hreg
      simp [List.length_append] at hlen
    · intro hpos
      simp [runStep, hn, hne, hdup, hpos]

/-- Raw record with a parsed positive gpqa_score for the C8 witness. -/
def c8Item : RawItem := { name := JsonStr.str "x", gpqa_score := JsonNum.val (1/2) }

theorem c8Item_final_eval :
    (buildEntity {} ∅ c8Item "x" (c8Item.organization.getD "Unknown")).final_score = 1/2 := by
  rw [buildEntity_final]
  rw [ingestSignals_gpqa c8Item _ rfl]
  rw [if_pos (show (0:ℚ) ≤ 1/2 ∧ (1/2:ℚ) ≤ 1 by norm_num)]
  unfold AddSignal
  rw [if_pos (by norm_num : (0:ℚ) < 1/2)]
  have hc : cclamp (1/2 : ℚ) 0 1 = 1/2 := by
    unfold cclamp
    rw [min_eq_left (by norm_num), max_eq_right (by norm_num)]
  norm_num [aggregate, weightedSum, totalWeight, hc]

/-- Witness for C8: the record carrying one positive signal is appended
and counted as processed. -/
theorem registry_persistence_witness :
    0 < (buildEntity {} ∅ c8Item "x" (c8Item.organization.getD "Unknown")).final_score ∧
    runStep {} ∅ {} c8Item =
      { ({} : IngestState) with
          registry := ({} : IngestState).registry
            ++ [buildEntity {} ∅ c8Item "x" (c8Item.organization.getD "Unknown")],
          processed := ({} : IngestState).processed + 1 } := by
  have hpos : 0 < (buildEntity {} ∅ c8Item "x" (c8Item.organization.getD "Unknown")).final_score := by
    rw [c8Item_final_eval]
    norm_num
  exact ⟨hpos, (registry_persistence {} ∅ {} c8Item "x" rfl (by decide) rfl).2.mpr hpos⟩

theorem ingestSignals_length_le (item : RawItem) (n o : String) :
    (ingestSignals item { name := n, organization := o }).signals.length ≤ 1 := by
  cases hg : tryGetDouble item.gpqa_score with
  | some s =>
    rw [ingestSignals_gpqa item _ hg]
    split
    · exact addSignal_length_le _ _ _ _ rfl
    · simp
  | none =>
    cases ha : tryGetDouble item.average_score with
    | some s =>
      rw [ingestSignals_avg item _ hg ha]
      split
      · exact addSignal_length_le _ _ _ _ rfl
      · simp
    | none =>
      rw [ingestSignals_noparse item _ hg ha]
      simp

/-- Raw record whose gpqa_score parses to the out-of-range value 1.5
while average_score parses to 0.5. -/
def c10Item : RawItem :=
  { name := JsonStr.str "m", gpqa_score := JsonNum.val (3/2), average_score := JsonNum.val (1/2) }

/-- Counterexample to claim C10 as stated: gpqa_score parses, but to a
value outside [0,1], and average_score parses to 0.5 inside [0,1]; the
stated fallback would attach the Avg Score signal, yet the ingestion
attaches no signal at all, because the average_score branch is only
reached when gpqa_score does not parse. -/
theorem single_signal_counterexample :
    tryGetDouble c10Item.gpqa_score = some (3/2) ∧
    ¬ (0 ≤ (3/2:ℚ) ∧ (3/2:ℚ) ≤ 1) ∧
    tryGetDouble c10Item.average_score = some (1/2) ∧
    (0 ≤ (1/2:ℚ) ∧ (1/2:ℚ) ≤ 1) ∧
    (ingestSignals c10Item { name := "m", organization := "Unknown" }).signals = [] := by
  refine ⟨rfl, by norm_num, rfl, by norm_num, ?_⟩
  rw [ingestSignals_gpqa c10Item _ rfl, if_neg (by norm_num)]

/-- Claim C10 (amended): ingestion attaches at most one signal: the
ZeroEval GPQA signal with weight 0.50 when gpqa_score parses to a value
in (0,1]; when gpqa_score does not parse at all, the Avg Score signal
with weight 0.40 when average_score parses to a value in (0,1];
otherwise none (a value parsing to exactly 0 passes the range check but
is dropped by AddSignal, and an out-of-range gpqa_score suppresses the
average_score fallback). Consequently a persisted record has exactly
one signal, its dispersion penalty vanishes, and the High Consensus
rationale, gated on at least 3 signals, never appears. -/
theorem single_signal_per_record (em : PerformanceMetrics) (mods : Finset Modality)
    (item : RawItem) (n o : String) :
    (buildEntity em mods item n o).signals.length ≤ 1 ∧
    (∀ s, tryGetDouble item.gpqa_score = some s → 0 < s → s ≤ 1 →
      (buildEntity em mods item n o).signals = [⟨"ZeroEval GPQA", s, 1/2⟩]) ∧
    (∀ s, tryGetDouble item.gpqa_score = none → tryGetDouble item.average_score = some s →
      0 < s → s ≤ 1 →
      (buildEntity em mods item n o).signals = [⟨"Avg Score", s, 2/5⟩]) ∧
    (0 < (buildEntity em mods item n o).final_score →
      (buildEntity em mods item n o).signals.length = 1 ∧
      signalStdDev (buildEntity em mods item n o) = 0 ∧
      ¬ 3 ≤ (buildEntity em mods item n o).signals.length) ∧
    ¬ List.IsInfix "High Consensus".data (confidenceReason (buildEntity em mods item n o)).data := by
  have hlen : (buildEntity em mods item n o).signals.length ≤ 1 := ingestSignals_length_le item n o
  refine ⟨hlen, ?_, ?_, ?_, ?_⟩
  · intro s hg h0 h1
    have hc : cclamp s 0 1 = s := by
      unfold cclamp
      rw [min_eq_left h1, max_eq_right h0.le]
    show (ingestSignals item { name := n, organization := o }).signals = _
    rw [ingestSignals_gpqa item _ hg]
    rw [if_pos (show (0:ℚ) ≤ s ∧ s ≤ 1 from ⟨h0.le, h1⟩)]
    unfold AddSignal
    rw [if_pos h0]
    simp [hc]
  · intro s hg ha h0 h1
    have hc : cclamp s 0 1 = s := by
      unfold cclamp
      rw [min_eq_left h1, max_eq_right h0.le]
    show (ingestSignals item { name := n, organization := o }).signals = _
    rw [ingestSignals_avg item _ hg ha]
    rw [if_pos (show (0:ℚ) ≤ s ∧ s ≤ 1 from ⟨h0.le, h1⟩)]
    unfold AddSignal
    rw [if_pos h0]
    simp [hc]
  · intro hpos
    have hne : (buildEntity em mods item n o).signals ≠ [] := by
      intro h
      rw [buildEntity_final] at hpos
      have h0 : (ingestSignals item { name := n, organization := o }).signals = [] := h
      rw [h0] at hpos
      simp [aggregate] at hpos
    have h1 : 1 ≤ (buildEntity em mods item n o).signals.length := List.length_pos.mpr hne
    exact ⟨by omega, signalStdDev_eq_zero_of_single (by omega),
      by omega⟩
  · have hcons : ¬ 3 ≤ (buildEntity em mods item n o).signals.length := by omega
    unfold confidenceReason
    rw [if_neg hcons]
    split
    · decide
    · split
      · split
        · decide
        · decide
      · split
        · decide
        · decide

/-- Raw record with a parsed in-range gpqa_score 0.7 for the C10
witness. -/
def c10Good : RawItem := { name := JsonStr.str "g", gpqa_score := JsonNum.val (7/10) }

/-- Witness for C10 (amended) at c10Good. -/
theorem single_signal_per_record_witness :
    (buildEntity {} ∅ c10Good "g" "Unknown").signals = [⟨"ZeroEval GPQA", 7/10, 1/2⟩] :=
  (single_signal_per_record {} ∅ c10Good "g" "Unknown").2.1 (7/10) rfl (by norm_num) (by norm_num)

end CrossBench
